import Mathlib

/-!
Shallow embedding of `src/backend/video_processor.py` (class `VideoProcessor`)
of the Bluring-Faces repository, together with theorems settling the claims
about its specification.

Modelling conventions:
* A numpy frame (H×W pixel array) is a `FrameData`: explicit dimensions plus a
  total pixel function.  Per-channel byte values are collapsed to one `Pixel`
  sample per coordinate; none of the verified properties distinguish channels.
* `cv2.GaussianBlur` and `cv2.resize` are external OpenCV library calls, not
  code of this repository; they are passed in as function parameters
  (`blurFn`, `samplerFn`).  `cv2.resize` is constrained to produce exactly the
  requested output dimensions, which is its documented behaviour.
* Python `float` expressions are modelled exactly over `ℚ`; Python `int(x)`
  (truncation toward zero) is `pyInt`.
* Python slice indices follow Python semantics: a negative index counts from
  the end of the axis (`pySliceIdx`).
* `cv2.VideoCapture` / `cv2.VideoWriter` are modelled by booleans recording
  whether the source/sink opened, the list of frames the reader actually
  yields, and the container-reported metadata (`fps`, `total_frames`, `width`,
  `height`) passed as parameters.  Raised Python exceptions are `Except.error`.
-/

/-- One pixel sample of a numpy frame (a byte value in the source). -/
abbrev Pixel := Nat

/-- Pixel data of one video frame with explicit dimensions, modelling a numpy
array of shape `(h, w, …)`; `data i j` is the sample at row `i`, column `j`. -/
structure FrameData where
  h : Nat
  w : Nat
  data : Nat → Nat → Pixel

instance : Inhabited FrameData := ⟨⟨0, 0, fun _ _ => 0⟩⟩

/-- The dataclass `FaceBoundingBox` of video_processor.py (lines 13-20):
integer rectangle plus a confidence defaulting to 1.0. -/
structure FaceBoundingBox where
  x : Int
  y : Int
  width : Int
  height : Int
  confidence : ℚ := 1
deriving DecidableEq

/-- Python `int(q)` on an exact rational: truncation toward zero. -/
def pyInt (q : ℚ) : Int := if 0 ≤ q then ⌊q⌋ else ⌈q⌉

/-- Python slice-index normalisation for step-1 slices over an axis of length
`len`: a negative index counts from the end (clamped at 0), a non-negative
index is clamped at `len`. -/
def pySliceIdx (len : Nat) (i : Int) : Nat :=
  if i < 0 then (i + len).toNat else min len i.toNat

/-- Kernel size from blur strength, video_processor.py line 327:
`kernel_size = max(3, blur_strength * 2 + 1)`. -/
def kernelSize (blur_strength : Int) : Int := max 3 (blur_strength * 2 + 1)

/-- Sub-array `f[y1:y2, x1:x2]` for already-normalised bounds (the ROI of
video_processor.py line 323). -/
def extractROI (f : FrameData) (y1 y2 x1 x2 : Nat) : FrameData :=
  ⟨y2 - y1, x2 - x1, fun i j => f.data (y1 + i) (x1 + j)⟩

/-- Slice assignment `f[y1:y2, x1:x2] = roi` for already-normalised bounds
(video_processor.py line 331). -/
def writeROI (f : FrameData) (y1 y2 x1 x2 : Nat) (roi : FrameData) : FrameData :=
  ⟨f.h, f.w, fun i j =>
    if y1 ≤ i ∧ i < y2 ∧ x1 ≤ j ∧ j < x2 then roi.data (i - y1) (j - x1)
    else f.data i j⟩

/-- Body of the per-mask loop of `apply_blur_to_frame`
(video_processor.py lines 315-331).  `H`, `W` come from `frame.shape` of the
function argument; `f` is the current state of `result_frame`.  The raw slice
bounds `max(0, mask.x)` … `min(frame.shape[0], mask.y + mask.height)` are fed
to numpy slicing, hence through `pySliceIdx` (a negative stop wraps around).
`roi.size > 0` is equivalent to both slice extents being non-empty. -/
def applyOneMask (blurFn : Int → FrameData → FrameData) (blur_strength : Int)
    (H W : Nat) (f : FrameData) (mask : FaceBoundingBox) : FrameData :=
  let x1 := pySliceIdx W (max 0 mask.x)
  let y1 := pySliceIdx H (max 0 mask.y)
  let x2 := pySliceIdx W (min (W : Int) (mask.x + mask.width))
  let y2 := pySliceIdx H (min (H : Int) (mask.y + mask.height))
  if y1 < y2 ∧ x1 < x2 then
    writeROI f y1 y2 x1 x2
      (blurFn (kernelSize blur_strength) (extractROI f y1 y2 x1 x2))
  else f

/-- `VideoProcessor.apply_blur_to_frame` (video_processor.py lines 296-333):
returns the input unchanged for an empty mask list, otherwise blurs each
mask's clipped rectangle in list order on a working copy of the frame.
`blurFn` stands for `cv2.GaussianBlur` with the given odd kernel size. -/
def apply_blur_to_frame (blurFn : Int → FrameData → FrameData)
    (frame : FrameData) (masks : List FaceBoundingBox)
    (blur_strength : Int) : FrameData :=
  if masks.isEmpty then frame
  else masks.foldl (applyOneMask blurFn blur_strength frame.h frame.w) frame

/-- A Python dict key as it occurs in a masks dictionary: the wire convention
is string keys, but a caller may hold a dict with integer keys.  An `int` key
and a `str` key are distinct Python dict keys. -/
inductive DictKey where
  | intKey (n : Int)
  | strKey (s : String)
deriving DecidableEq

/-- The `masks_data` dictionary `{frame_number: [masks]}` passed to
`process_video` / `generate_preview`, as an association list (Python dict
keys are unique, so first-match lookup is dict lookup). -/
abbrev Schedule := List (DictKey × List FaceBoundingBox)

/-- Python `masks_data.get(key, [])`. -/
def dictGet (d : Schedule) (k : DictKey) : List FaceBoundingBox :=
  match d with
  | [] => []
  | (k1, v) :: rest => if k1 = k then v else dictGet rest k

/-- Per-frame body of the `process_video` loop (video_processor.py lines
265-281): look up `masks_data.get(str(frame_number), [])`; if non-empty,
rebuild the `FaceBoundingBox` objects (field-for-field, `confidence`
defaulting to 1.0 when absent — the schedule already carries it) and apply
the blur; otherwise pass the frame through. -/
def renderStep (blurFn : Int → FrameData → FrameData) (masks_data : Schedule)
    (blur_strength : Int) (frame_number : Nat) (frame : FrameData) : FrameData :=
  let frame_masks := dictGet masks_data (DictKey.strKey (toString frame_number))
  if frame_masks.isEmpty then frame
  else apply_blur_to_frame blurFn frame frame_masks blur_strength

/-- The `while True` read/process/write loop of `process_video`
(video_processor.py lines 260-288), collecting the frames written to the
sink and the values passed to the progress callback.  The callback fires
when a callback was supplied and `frame_number % 10 == 0`, with value
`(frame_number + 1) / total_frames * 100` (line 285). -/
def renderLoop (blurFn : Int → FrameData → FrameData) (masks_data : Schedule)
    (blur_strength : Int) (total_frames : Int) (hasCallback : Bool) :
    List FrameData → Nat → List FrameData × List ℚ
  | [], _ => ([], [])
  | frame :: rest, frame_number =>
    let outFrame := renderStep blurFn masks_data blur_strength frame_number frame
    let tail := renderLoop blurFn masks_data blur_strength total_frames hasCallback
      rest (frame_number + 1)
    (outFrame :: tail.1,
     (if hasCallback ∧ frame_number % 10 = 0 then
        [((frame_number : ℚ) + 1) / (total_frames : ℚ) * 100]
      else []) ++ tail.2)

/-- Observable outcome of a successful `process_video` call: the frames
written to the sink in order, the progress percentages reported, and the
returned boolean. -/
structure RenderResult where
  written : List FrameData
  progressValues : List ℚ
  success : Bool
deriving Inhabited

/-- `VideoProcessor.process_video` (video_processor.py lines 218-294).
`inputExists` models `os.path.exists(input_path)`, `sourceOpened` models
`cap.isOpened()`, `sinkOpened` models `out.isOpened()`; `frames` is the
sequence of frames the reader actually yields (the loop stops on the first
failed `cap.read()`), `total_frames` the container-reported
`CAP_PROP_FRAME_COUNT`.  Raises (returns `.error`) on a missing input, an
unopenable source, or an unopenable sink; otherwise runs the loop and
returns `True`. -/
def process_video (blurFn : Int → FrameData → FrameData)
    (inputExists sourceOpened sinkOpened : Bool) (frames : List FrameData)
    (total_frames : Int) (masks_data : Schedule) (blur_strength : Int)
    (hasCallback : Bool) : Except String RenderResult :=
  if ¬ inputExists then .error "Input video not found"
  else if ¬ sourceOpened then .error "Cannot open input video"
  else if ¬ sinkOpened then .error "Cannot create output video"
  else
    let r := renderLoop blurFn masks_data blur_strength total_frames hasCallback
      frames 0
    .ok ⟨r.1, r.2, true⟩

/-- The `for frame_num in range(preview_frames)` loop of `generate_preview`
(video_processor.py lines 372-391): same mask lookup as the render loop,
except the rebuilt `FaceBoundingBox` objects omit `confidence` (so it takes
its default 1.0), then the frame is resized to
`(preview_width, preview_height)` and written.  `samplerFn` abstracts the
pixel resampling performed by `cv2.resize`, whose output has exactly the
requested dimensions. -/
def previewLoop (blurFn : Int → FrameData → FrameData)
    (samplerFn : Nat → Nat → FrameData → Nat → Nat → Pixel)
    (masks_data : Schedule) (blur_strength : Int) (pw ph : Nat) :
    List FrameData → Nat → List FrameData
  | [], _ => []
  | frame :: rest, frame_num =>
    let frame_masks := (dictGet masks_data (DictKey.strKey (toString frame_num))).map
      (fun m => { x := m.x, y := m.y, width := m.width, height := m.height })
    let f1 := if frame_masks.isEmpty then frame
      else apply_blur_to_frame blurFn frame frame_masks blur_strength
    FrameData.mk ph pw (samplerFn pw ph f1) ::
      previewLoop blurFn samplerFn masks_data blur_strength pw ph rest (frame_num + 1)

/-- `VideoProcessor.generate_preview` (video_processor.py lines 335-397).
Computes `preview_frames = min(total_frames, int(preview_duration * fps))`,
`preview_width = min(640, width)` and
`preview_height = int(preview_width * height / width)` (lines 361-365).
The writer `out` is created but `out.isOpened()` is never consulted, so the
`sinkOpened` parameter is deliberately unused and the function returns
`True` whenever the source opened.  The loop reads at most `preview_frames`
frames and stops early if the source is exhausted (`frames.take`). -/
def generate_preview (blurFn : Int → FrameData → FrameData)
    (samplerFn : Nat → Nat → FrameData → Nat → Nat → Pixel)
    (sourceOpened sinkOpened : Bool) (frames : List FrameData) (fps : ℚ)
    (total_frames : Int) (width height : Nat) (masks_data : Schedule)
    (blur_strength : Int) (preview_duration : Int) :
    Except String (List FrameData × Bool) :=
  if ¬ sourceOpened then .error "Cannot open video"
  else
    let preview_frames : Int := min total_frames (pyInt ((preview_duration : ℚ) * fps))
    let preview_width : Nat := min 640 width
    let preview_height : Int := pyInt ((preview_width : ℚ) * (height : ℚ) / (width : ℚ))
    let written := previewLoop blurFn samplerFn masks_data blur_strength
      preview_width preview_height.toNat (frames.take preview_frames.toNat) 0
    .ok (written, true)

/-- A raw rectangle as reported by the external dlib detector
(`rect.left() / top() / width() / height()`). -/
structure RawRect where
  left : Int
  top : Int
  width : Int
  height : Int
deriving DecidableEq

/-- The raw output of one invocation of the external detector: either the CNN
detector (rectangles with confidences) or the HOG detector (rectangles only).
The detector itself is external (dlib); only its normalisation is this
repository's code. -/
inductive DetectorKind where
  | cnn (dets : List (RawRect × ℚ))
  | hog (dets : List RawRect)

/-- The CNN branch of `detect_faces` (video_processor.py lines 167-191):
skip detections with `confidence < 0.5`, then expand the box with margin
0.15: `x = max(0, int(x - w * margin))`, `y = max(0, int(y - h * margin))`,
`w = min(width - x, int(w * (1 + 2 * margin)))` (using the updated `x`),
`h = min(height - y, int(h * (1 + 2 * margin)))`. -/
def cnnFaceLoop (W H : Nat) : List (RawRect × ℚ) → List FaceBoundingBox
  | [] => []
  | (rect, confidence) :: rest =>
    if confidence < 0.5 then cnnFaceLoop W H rest
    else
      let margin : ℚ := 0.15
      let x := max 0 (pyInt ((rect.left : ℚ) - (rect.width : ℚ) * margin))
      let y := max 0 (pyInt ((rect.top : ℚ) - (rect.height : ℚ) * margin))
      let w := min ((W : Int) - x) (pyInt ((rect.width : ℚ) * (1 + 2 * margin)))
      let h := min ((H : Int) - y) (pyInt ((rect.height : ℚ) * (1 + 2 * margin)))
      ⟨x, y, w, h, confidence⟩ :: cnnFaceLoop W H rest

/-- The HOG branch of `detect_faces` (video_processor.py lines 193-211):
no confidence filter (every detection kept with confidence 1.0), margin 0.2,
same expansion formulas. -/
def hogFaceLoop (W H : Nat) : List RawRect → List FaceBoundingBox
  | [] => []
  | rect :: rest =>
    let margin : ℚ := 0.2
    let x := max 0 (pyInt ((rect.left : ℚ) - (rect.width : ℚ) * margin))
    let y := max 0 (pyInt ((rect.top : ℚ) - (rect.height : ℚ) * margin))
    let w := min ((W : Int) - x) (pyInt ((rect.width : ℚ) * (1 + 2 * margin)))
    let h := min ((H : Int) - y) (pyInt ((rect.height : ℚ) * (1 + 2 * margin)))
    ⟨x, y, w, h, 1⟩ :: hogFaceLoop W H rest

/-- `VideoProcessor.detect_faces` (video_processor.py lines 150-216).
`H`, `W` are `frame.shape[:2]`.  `invocationOk = false` models the external
detector invocation raising: the `try` block wraps the whole detection, the
exception is caught and logged, and the `faces` list — still empty, since the
invocation is the first statement of the `try` — is returned. -/
def detect_faces (kind : DetectorKind) (invocationOk : Bool) (H W : Nat) :
    List FaceBoundingBox :=
  if ¬ invocationOk then []
  else
    match kind with
    | .cnn dets => cnnFaceLoop W H dets
    | .hog dets => hogFaceLoop W H dets

/-- The `while True` loop of `analyze_video` (video_processor.py lines
104-120): per frame, run detection (whose raw outcome and possible failure
are given per frame) and record a `faces_by_frame` entry under the key
`str(frame_number)` only when faces were found. -/
def analyzeLoop (H W : Nat) :
    List (DetectorKind × Bool) → Nat → List (String × List FaceBoundingBox)
  | [], _ => []
  | (kind, ok) :: rest, frame_number =>
    let faces := detect_faces kind ok H W
    (if faces.isEmpty then [] else [(toString frame_number, faces)]) ++
      analyzeLoop H W rest (frame_number + 1)

/-- Observable outcome of `analyze_video`: the `faces_by_frame` mapping and
`analysis_settings.total_analyzed_frames = len(faces_by_frame)`
(video_processor.py lines 125-138). -/
structure AnalysisResult where
  faces_by_frame : List (String × List FaceBoundingBox)
  total_analyzed_frames : Nat
deriving Inhabited

/-- `VideoProcessor.analyze_video` (video_processor.py lines 72-148),
restricted to its frame loop and result assembly.  `detPerFrame` pairs each
frame the reader yields with that frame's raw detector outcome and whether
the detector invocation succeeded. -/
def analyze_video (detPerFrame : List (DetectorKind × Bool)) (H W : Nat) :
    AnalysisResult :=
  let fbf := analyzeLoop H W detPerFrame 0
  ⟨fbf, fbf.length⟩

/-- Key normalisation the HTTP boundary applies before calling the core:
`masks_dict[str(frame_key)] = …` in main.py (lines 127-139 and 176-188)
stringifies every key of the incoming masks dictionary. -/
def stringifyKeys (d : Schedule) : Schedule :=
  d.map (fun p => (DictKey.strKey (match p.1 with
    | .intKey n => toString n
    | .strKey s => s), p.2))

/-- An integer-keyed schedule: every frame index keyed by the Python `int`
itself rather than its string form. -/
def intKeyed (d : List (Int × List FaceBoundingBox)) : Schedule :=
  d.map (fun p => (DictKey.intKey p.1, p.2))

/-- A string-keyed schedule: the same frame indices keyed by `str(n)`. -/
def strKeyed (d : List (Int × List FaceBoundingBox)) : Schedule :=
  d.map (fun p => (DictKey.strKey (toString p.1), p.2))

/-- Modelled from the spec claim it refutes: the alternative overlap
semantics in which each region is blurred independently from the original
frame and the blurred rectangles are then merged into the output (later
regions overwriting earlier ones in overlaps).  This is NOT what the code
does; it exists to be contrasted with `apply_blur_to_frame`. -/
def independentMergeBlur (blurFn : Int → FrameData → FrameData)
    (frame : FrameData) (masks : List FaceBoundingBox)
    (blur_strength : Int) : FrameData :=
  masks.foldl (fun acc mask =>
    let x1 := pySliceIdx frame.w (max 0 mask.x)
    let y1 := pySliceIdx frame.h (max 0 mask.y)
    let x2 := pySliceIdx frame.w (min (frame.w : Int) (mask.x + mask.width))
    let y2 := pySliceIdx frame.h (min (frame.h : Int) (mask.y + mask.height))
    if y1 < y2 ∧ x1 < x2 then
      writeROI acc y1 y2 x1 x2
        (blurFn (kernelSize blur_strength) (extractROI frame y1 y2 x1 x2))
    else acc) frame

/-- Frames written by a `process_video` run (empty if it raised). -/
def writtenFrames (e : Except String RenderResult) : List FrameData :=
  match e with
  | .ok r => r.written
  | .error _ => []

/-- Progress values reported by a `process_video` run (empty if it raised). -/
def progressOf (e : Except String RenderResult) : List ℚ :=
  match e with
  | .ok r => r.progressValues
  | .error _ => []

/-- Frames written by a `generate_preview` run (empty if it raised). -/
def previewFrames (e : Except String (List FrameData × Bool)) : List FrameData :=
  match e with
  | .ok p => p.1
  | .error _ => []

/-- A concrete stand-in for `cv2.GaussianBlur` in closed runs: every pixel of
the ROI becomes 0. -/
def blurToZero : Int → FrameData → FrameData :=
  fun _ roi => ⟨roi.h, roi.w, fun _ _ => 0⟩

/-- A concrete stand-in for `cv2.GaussianBlur` in closed runs: every pixel of
the ROI becomes the leftmost pixel of its row (the blur genuinely moves pixel
information sideways, as a real Gaussian blur does on non-constant data). -/
def blurSmearLeft : Int → FrameData → FrameData :=
  fun _ roi => ⟨roi.h, roi.w, fun i _ => roi.data i 0⟩

/-- A concrete stand-in for `cv2.GaussianBlur` in closed runs: every ROI pixel
is incremented, so each blur pass leaves a countable trace. -/
def blurPlusOne : Int → FrameData → FrameData :=
  fun _ roi => ⟨roi.h, roi.w, fun i j => roi.data i j + 1⟩

/-- A concrete stand-in for the `cv2.resize` resampler in closed runs. -/
def sampler0 : Nat → Nat → FrameData → Nat → Nat → Pixel :=
  fun _ _ _ _ _ => 0

/-- A 1×4 frame whose pixels all equal 5. -/
def flatFrame5 : FrameData := ⟨1, 4, fun _ _ => 5⟩

/-- A 1×4 frame whose pixel at column `j` is `10 * j`. -/
def rampFrame : FrameData := ⟨1, 4, fun _ j => 10 * j⟩

/-- A 1×4 all-zero frame. -/
def zeroFrame14 : FrameData := ⟨1, 4, fun _ _ => 0⟩

/-- A 334×1000 all-zero frame (source resolution of the preview runs). -/
def tallFrame : FrameData := ⟨334, 1000, fun _ _ => 0⟩

/-- A full-frame mask for the 1×4 frames. -/
def fullMask14 : FaceBoundingBox := ⟨0, 0, 4, 1, 1⟩

/-- A schedule holding `fullMask14` for frame 0 under the integer key `0`. -/
def intSched : Schedule := [(DictKey.intKey 0, [fullMask14])]

/-- The identical schedule with the stringified key `"0"`. -/
def strSched : Schedule := [(DictKey.strKey "0", [fullMask14])]

/-- A mask entirely left of a width-4 frame (`x + width = -2 < 0`): its
clipped intersection with the frame is empty. -/
def offscreenMask : FaceBoundingBox := ⟨-10, 0, 8, 1, 1⟩

/-- Overlapping masks on the 1×4 frames: columns [0,3) and [1,4). -/
def overlapMask1 : FaceBoundingBox := ⟨0, 0, 3, 1, 1⟩

/-- Second overlapping mask, columns [1,4). -/
def overlapMask2 : FaceBoundingBox := ⟨1, 0, 3, 1, 1⟩

/-- Source frames of the concrete preview run: three 334×1000 frames. -/
def c2Frames : List FrameData := [tallFrame, tallFrame, tallFrame]

/-- The concrete preview run: fps = 2.7, container frame count 3,
1000×334 source, empty schedule, preview duration 1 second. -/
def c2Run : Except String (List FrameData × Bool) :=
  generate_preview blurToZero sampler0 true true c2Frames (27/10) 3 1000 334 [] 15 1

/-- Source frames of the concrete render runs for frame accounting. -/
def c5Frames : List FrameData := [flatFrame5, rampFrame]

/-- Eleven source frames against a container-reported count of 5: the reader
yields more frames than the container promised. -/
def c6Frames : List FrameData := List.replicate 11 rampFrame

/-- The concrete render run used to witness the amended progress claim:
two readable frames, container count 2, callback supplied. -/
def c6wRun : Except String RenderResult :=
  process_video blurToZero true true true c5Frames 2 [] 15 true

/-- The raw HOG detection used in the concrete detection runs. -/
def hogRect : RawRect := ⟨0, 0, 10, 10⟩

/-- The margin-expanded box `detect_faces` produces from `hogRect` on a
100×100 frame: margin 0.2 gives `x = max(0, int(0 - 2)) = 0` and
`w = min(100 - 0, int(14)) = 14`. -/
def hogBox : FaceBoundingBox := ⟨0, 0, 14, 14, 1⟩

/-- C4: `apply_blur_to_frame` processes the masks of one frame sequentially
in list order on a single working frame, so the second mask's blur input is
the frame state already blurred by the first (compounded blur in the
overlap).  Concretely, with a blur that increments every ROI pixel, a pixel
in the overlap of two masks ends at 2 (blurred twice), whereas the
independently-blur-then-merge semantics the claim rules out would end at 1. -/
theorem C4_overlapping_masks_compound :
    (∀ (blurFn : Int → FrameData → FrameData) (f : FrameData)
        (m1 m2 : FaceBoundingBox) (s : Int),
      apply_blur_to_frame blurFn f [m1, m2] s
        = applyOneMask blurFn s f.h f.w (applyOneMask blurFn s f.h f.w f m1) m2)
    ∧ (apply_blur_to_frame blurPlusOne zeroFrame14 [overlapMask1, overlapMask2] 15).data 0 1 = 2
    ∧ (independentMergeBlur blurPlusOne zeroFrame14 [overlapMask1, overlapMask2] 15).data 0 1 = 1 :=
  ⟨fun _ _ _ _ _ => rfl, by decide, by decide⟩

/-- C3 (code bug): a mask entirely beyond the left frame edge with
`-width ≤ mask.x + mask.width < 0` has an empty clipped intersection with
the frame, so by the claim the mask must be skipped and every pixel left
byte-identical.  The code instead feeds the negative clipped bound
`x2 = min(frame_width, x + width) = -2` to numpy slicing, which wraps it to
`frame_width - 2`, and blurs columns [0, 2) — pixels outside every region
change.  First conjunct: the clipped intersection is indeed empty; second:
pixel (0,1), outside all regions, is modified by `apply_blur_to_frame`. -/
theorem C3_code_bug_negative_stop_wraps :
    min ((4 : Int)) (offscreenMask.x + offscreenMask.width) ≤ max 0 offscreenMask.x
    ∧ (apply_blur_to_frame blurSmearLeft rampFrame [offscreenMask] 15).data 0 1
        ≠ rampFrame.data 0 1 :=
  ⟨by decide, by decide⟩

/-- Lookup under a string key never finds an integer-keyed entry. -/
theorem dictGet_intKeyed (S : List (Int × List FaceBoundingBox)) (s : String) :
    dictGet (intKeyed S) (DictKey.strKey s) = [] := by
  induction S with
  | nil => rfl
  | cons p rest ih => simpa [intKeyed, dictGet] using ih

/-- Two schedules that agree on every `str(n)` lookup drive the render loop
identically. -/
theorem renderLoop_congr (blurFn : Int → FrameData → FrameData)
    (md1 md2 : Schedule) (bs tf : Int) (cb : Bool)
    (h : ∀ n : Nat, dictGet md1 (DictKey.strKey (toString n))
        = dictGet md2 (DictKey.strKey (toString n))) :
    ∀ (frames : List FrameData) (n : Nat),
      renderLoop blurFn md1 bs tf cb frames n = renderLoop blurFn md2 bs tf cb frames n := by
  intro frames
  induction frames with
  | nil => intro n; rfl
  | cons f rest ih =>
    intro n
    simp only [renderLoop, renderStep, h n, ih (n + 1)]

/-- Two schedules that agree on every `str(n)` lookup drive the preview loop
identically. -/
theorem previewLoop_congr (blurFn : Int → FrameData → FrameData)
    (samplerFn : Nat → Nat → FrameData → Nat → Nat → Pixel)
    (md1 md2 : Schedule) (bs : Int) (pw ph : Nat)
    (h : ∀ n : Nat, dictGet md1 (DictKey.strKey (toString n))
        = dictGet md2 (DictKey.strKey (toString n))) :
    ∀ (frames : List FrameData) (n : Nat),
      previewLoop blurFn samplerFn md1 bs pw ph frames n
        = previewLoop blurFn samplerFn md2 bs pw ph frames n := by
  intro frames
  induction frames with
  | nil => intro n; rfl
  | cons f rest ih =>
    intro n
    simp only [previewLoop, h n, ih (n + 1)]

/-- Stringifying the keys of an integer-keyed schedule, as the HTTP boundary
does, yields exactly the string-keyed schedule. -/
theorem stringifyKeys_intKeyed (S : List (Int × List FaceBoundingBox)) :
    stringifyKeys (intKeyed S) = strKeyed S := by
  induction S with
  | nil => rfl
  | cons p rest ih => simp only [stringifyKeys, intKeyed, strKeyed, List.map_cons,
      List.map_map] at ih ⊢; simp [ih]

/-- C1 counterexample: rendering a one-frame video with the schedule
`{0: [mask]}` (integer key) leaves the frame untouched (pixel 5), while the
identical schedule `{"0": [mask]}` (string key) blurs it (pixel 0): the two
key forms do NOT select the same region list in `process_video`. -/
theorem C1_counterexample :
    ((writtenFrames (process_video blurToZero true true true [flatFrame5] 1
        intSched 15 false)).getD 0 default).data 0 0 = 5
    ∧ ((writtenFrames (process_video blurToZero true true true [flatFrame5] 1
        strSched 15 false)).getD 0 default).data 0 0 = 0
    ∧ ((writtenFrames (process_video blurToZero true true true [flatFrame5] 1
        intSched 15 false)).getD 0 default).data 0 0
      ≠ ((writtenFrames (process_video blurToZero true true true [flatFrame5] 1
        strSched 15 false)).getD 0 default).data 0 0 :=
  ⟨by decide, by decide, by decide⟩

/-- C1 amended: `process_video` and `generate_preview` look up frame `n`'s
regions only under the string key `str(n)`.  A schedule passed to them with
integer keys is therefore treated exactly like an empty schedule (no frame
is blurred); the int/str equivalence the claim asserts holds only after the
ingestion boundary stringifies the keys (`masks_dict[str(frame_key)]` in
main.py), after which the integer-keyed schedule renders identically to the
directly string-keyed one. -/
theorem C1_amended :
    (∀ (blurFn : Int → FrameData → FrameData) (frames : List FrameData)
        (tf : Int) (S : List (Int × List FaceBoundingBox)) (bs : Int) (cb : Bool),
      process_video blurFn true true true frames tf (intKeyed S) bs cb
        = process_video blurFn true true true frames tf [] bs cb)
    ∧ (∀ (blurFn : Int → FrameData → FrameData)
        (samplerFn : Nat → Nat → FrameData → Nat → Nat → Pixel) (sink : Bool)
        (frames : List FrameData) (fps : ℚ) (tf : Int) (w h : Nat)
        (S : List (Int × List FaceBoundingBox)) (bs pd : Int),
      generate_preview blurFn samplerFn true sink frames fps tf w h (intKeyed S) bs pd
        = generate_preview blurFn samplerFn true sink frames fps tf w h [] bs pd)
    ∧ (∀ (blurFn : Int → FrameData → FrameData) (frames : List FrameData)
        (tf : Int) (S : List (Int × List FaceBoundingBox)) (bs : Int) (cb : Bool),
      process_video blurFn true true true frames tf (stringifyKeys (intKeyed S)) bs cb
        = process_video blurFn true true true frames tf (strKeyed S) bs cb) := by
  refine ⟨?_, ?_, ?_⟩
  · intro blurFn frames tf S bs cb
    simp only [process_video,
      renderLoop_congr blurFn (intKeyed S) [] bs tf cb
        (fun n => by simp [dictGet_intKeyed, dictGet]) frames 0]
  · intro blurFn samplerFn sink frames fps tf w h S bs pd
    simp only [generate_preview,
      previewLoop_congr blurFn samplerFn (intKeyed S) [] bs _ _
        (fun n => by simp [dictGet_intKeyed, dictGet]) _ 0]
  · intro blurFn frames tf S bs cb
    rw [stringifyKeys_intKeyed]

/-- The render loop writes exactly one frame per frame read. -/
theorem renderLoop_written_length (blurFn : Int → FrameData → FrameData)
    (md : Schedule) (bs tf : Int) (cb : Bool) :
    ∀ (frames : List FrameData) (n : Nat),
      (renderLoop blurFn md bs tf cb frames n).1.length = frames.length := by
  intro frames
  induction frames with
  | nil => intro n; rfl
  | cons f rest ih => intro n; simp [renderLoop, ih (n + 1)]

/-- The i-th frame the render loop writes is the processed i-th frame read. -/
theorem renderLoop_written_getD (blurFn : Int → FrameData → FrameData)
    (md : Schedule) (bs tf : Int) (cb : Bool) :
    ∀ (frames : List FrameData) (n i : Nat), i < frames.length →
      (renderLoop blurFn md bs tf cb frames n).1.getD i default
        = renderStep blurFn md bs (n + i) (frames.getD i default) := by
  intro frames
  induction frames with
  | nil => intro n i h; exact absurd h (by simp)
  | cons f rest ih =>
    intro n i h
    cases i with
    | zero => simp [renderLoop]
    | succ j =>
      have hj : j < rest.length := by simpa using h
      have := ih (n + 1) j hj
      simpa [renderLoop, Nat.add_assoc, Nat.add_comm 1 j] using this

/-- C5: a successful `process_video` run writes exactly one output frame per
frame actually read from the source, in read order, regardless of the
container-reported `total_frames`: the written list has the same length as
the list of frames the reader yielded, and its i-th element is the processed
i-th source frame. -/
theorem C5_one_write_per_read (blurFn : Int → FrameData → FrameData)
    (frames : List FrameData) (tf : Int) (md : Schedule) (bs : Int) (cb : Bool)
    (r : RenderResult)
    (h : process_video blurFn true true true frames tf md bs cb = .ok r) :
    r.written.length = frames.length
    ∧ ∀ i, i < frames.length →
        r.written.getD i default = renderStep blurFn md bs i (frames.getD i default) := by
  have hr : r = ⟨(renderLoop blurFn md bs tf cb frames 0).1,
      (renderLoop blurFn md bs tf cb frames 0).2, true⟩ := by
    simpa [process_video] using h.symm
  subst hr
  refine ⟨renderLoop_written_length blurFn md bs tf cb frames 0, ?_⟩
  intro i hi
  simpa using renderLoop_written_getD blurFn md bs tf cb frames 0 i hi

/-- C5 witness: a concrete two-frame render against a wildly wrong
container-reported frame count of 99 still writes exactly two frames, the
first being the processed first source frame. -/
theorem C5_witness :
    (RenderResult.mk (renderLoop blurToZero [] 15 99 false c5Frames 0).1
        (renderLoop blurToZero [] 15 99 false c5Frames 0).2 true).written.length
      = c5Frames.length
    ∧ (RenderResult.mk (renderLoop blurToZero [] 15 99 false c5Frames 0).1
        (renderLoop blurToZero [] 15 99 false c5Frames 0).2 true).written.getD 0 default
      = renderStep blurToZero [] 15 0 (c5Frames.getD 0 default) := by
  have h := C5_one_write_per_read blurToZero c5Frames 99 [] 15 false
    ⟨(renderLoop blurToZero [] 15 99 false c5Frames 0).1,
     (renderLoop blurToZero [] 15 99 false c5Frames 0).2, true⟩ rfl
  exact ⟨h.1, h.2 0 (by decide)⟩

/-- Progress values the render loop reports: one value
`(k + 1) / total_frames * 100` for every processed frame index `k` divisible
by 10. -/
theorem renderLoop_progress (blurFn : Int → FrameData → FrameData)
    (md : Schedule) (bs tf : Int) :
    ∀ (frames : List FrameData) (n : Nat),
      (renderLoop blurFn md bs tf true frames n).2
        = (((List.range frames.length).map (fun i => n + i)).filter
            (fun k => k % 10 = 0)).map
            (fun k : Nat => ((k : ℚ) + 1) / (tf : ℚ) * 100) := by
  intro frames
  induction frames with
  | nil => intro n; rfl
  | cons f rest ih =>
    intro n
    have hmap : (List.range rest.length).map ((fun i => n + i) ∘ Nat.succ)
        = (List.range rest.length).map (fun i => (n + 1) + i) := by
      apply List.map_congr_left
      intro a _
      simp [Function.comp]
      omega
    simp only [renderLoop, ih (n + 1), List.length_cons, List.range_succ_eq_map,
      List.map_cons, List.map_map, Nat.add_zero, List.filter_cons, hmap]
    by_cases h : n % 10 = 0
    · simp [h]
    · simp [h]

/-- C6 amended: with a callback supplied and a positive container-reported
frame count, `process_video` reports progress exactly on every 10th frame
read, with value `(frame_index + 1) / frame_count * 100`, and the reported
sequence is monotonically non-decreasing; but the values are only guaranteed
to lie in [0, 100] when the source yields at most `frame_count` frames —
when the container under-reports the frame count, reported values exceed
100 (see the counterexample). -/
theorem C6_amended (blurFn : Int → FrameData → FrameData)
    (frames : List FrameData) (tf : Int) (md : Schedule) (bs : Int)
    (r : RenderResult) (htf : 0 < tf)
    (h : process_video blurFn true true true frames tf md bs true = .ok r) :
    r.progressValues
      = ((List.range frames.length).filter (fun k => k % 10 = 0)).map
          (fun k : Nat => ((k : ℚ) + 1) / (tf : ℚ) * 100)
    ∧ r.progressValues.Pairwise (· ≤ ·)
    ∧ ((frames.length : Int) ≤ tf →
        ∀ p ∈ r.progressValues, 0 ≤ p ∧ p ≤ 100) := by
  have htfq : (0 : ℚ) < (tf : ℚ) := by exact_mod_cast htf
  have hr : r = ⟨(renderLoop blurFn md bs tf true frames 0).1,
      (renderLoop blurFn md bs tf true frames 0).2, true⟩ := by
    simpa [process_video] using h.symm
  subst hr
  have hprog := renderLoop_progress blurFn md bs tf frames 0
  have hzero : (List.range frames.length).map (fun i => 0 + i)
      = List.range frames.length := by simp
  rw [hzero] at hprog
  refine ⟨hprog, ?_, ?_⟩
  · rw [hprog]
    have hpw : ((List.range frames.length).filter (fun k => k % 10 = 0)).Pairwise
        (· < ·) := (List.pairwise_lt_range frames.length).filter _
    refine List.Pairwise.map (fun k : Nat => ((k : ℚ) + 1) / (tf : ℚ) * 100) ?_ hpw
    intro a b hab
    have h1 : ((a : ℚ) + 1) ≤ ((b : ℚ) + 1) := by
      have : (a : ℚ) ≤ (b : ℚ) := by exact_mod_cast hab.le
      linarith
    exact mul_le_mul_of_nonneg_right ((div_le_div_iff_of_pos_right htfq).mpr h1)
      (by norm_num)
  · intro hle p hp
    rw [hprog] at hp
    obtain ⟨k, hk, rfl⟩ := List.mem_map.mp hp
    have hkr : k < frames.length := List.mem_range.mp (List.mem_filter.mp hk).1
    have hk1 : ((k : ℚ) + 1) ≤ (tf : ℚ) := by
      have hki : (k : Int) + 1 ≤ tf := by
        have : (k : Int) < (frames.length : Int) := by exact_mod_cast hkr
        omega
      exact_mod_cast hki
    constructor
    · exact mul_nonneg (div_nonneg (by positivity) htfq.le) (by norm_num)
    · calc ((k : ℚ) + 1) / (tf : ℚ) * 100 ≤ 1 * 100 :=
        mul_le_mul_of_nonneg_right ((div_le_one htfq).mpr hk1) (by norm_num)
      _ = 100 := by norm_num

/-- C6 counterexample: a source whose reader yields 11 frames while the
container reports `frame_count = 5` makes `process_video` report the
progress sequence [20, 220] — the second reported value, computed as
`(10 + 1) / 5 * 100`, lies outside [0, 100], contradicting the claim that
every reported value lies in [0, 100] for sources whose readable frame
count differs from the container-reported one. -/
theorem C6_counterexample :
    progressOf (process_video blurToZero true true true c6Frames 5 [] 15 true)
      = [20, 220]
    ∧ ¬ ((220 : ℚ) ≤ 100) := by
  constructor
  · norm_num [progressOf, process_video, c6Frames, List.replicate, renderLoop,
      renderStep, dictGet]
  · norm_num

/-- C6 witness: the amended progress claim applied to a concrete two-frame
render with container-reported frame count 2 and a callback supplied. -/
theorem C6_witness :
    (RenderResult.mk (renderLoop blurToZero [] 15 2 true c5Frames 0).1
        (renderLoop blurToZero [] 15 2 true c5Frames 0).2 true).progressValues
      = ((List.range c5Frames.length).filter (fun k => k % 10 = 0)).map
          (fun k : Nat => ((k : ℚ) + 1) / (((2 : Int)) : ℚ) * 100)
    ∧ (RenderResult.mk (renderLoop blurToZero [] 15 2 true c5Frames 0).1
        (renderLoop blurToZero [] 15 2 true c5Frames 0).2 true).progressValues.Pairwise
        (· ≤ ·)
    ∧ ((c5Frames.length : Int) ≤ 2 →
        ∀ p ∈ (RenderResult.mk (renderLoop blurToZero [] 15 2 true c5Frames 0).1
          (renderLoop blurToZero [] 15 2 true c5Frames 0).2 true).progressValues,
          0 ≤ p ∧ p ≤ 100) :=
  C6_amended blurToZero c5Frames 2 [] 15
    ⟨(renderLoop blurToZero [] 15 2 true c5Frames 0).1,
     (renderLoop blurToZero [] 15 2 true c5Frames 0).2, true⟩ (by decide) rfl

/-- The preview loop writes exactly one frame per frame it reads. -/
theorem previewLoop_length (blurFn : Int → FrameData → FrameData)
    (samplerFn : Nat → Nat → FrameData → Nat → Nat → Pixel)
    (md : Schedule) (bs : Int) (pw ph : Nat) :
    ∀ (frames : List FrameData) (n : Nat),
      (previewLoop blurFn samplerFn md bs pw ph frames n).length = frames.length := by
  intro frames
  induction frames with
  | nil => intro n; rfl
  | cons f rest ih => intro n; simp [previewLoop, ih (n + 1)]

/-- Every frame the preview loop writes has exactly the preview dimensions. -/
theorem previewLoop_dims (blurFn : Int → FrameData → FrameData)
    (samplerFn : Nat → Nat → FrameData → Nat → Nat → Pixel)
    (md : Schedule) (bs : Int) (pw ph : Nat) :
    ∀ (frames : List FrameData) (n : Nat) (f : FrameData),
      f ∈ previewLoop blurFn samplerFn md bs pw ph frames n →
      f.h = ph ∧ f.w = pw := by
  intro frames
  induction frames with
  | nil => intro n f hf; exact absurd hf (by simp [previewLoop])
  | cons g rest ih =>
    intro n f hf
    rcases List.mem_cons.mp hf with h | h
    · subst h; exact ⟨rfl, rfl⟩
    · exact ih (n + 1) f h

/-- C2 amended: a `generate_preview` run with an opened source writes
`min(source_frames_read, min(container_frame_count,
int(preview_duration * fps)))` frames — the container-reported frame count
also caps the loop, and Python `int` truncation (not rounding) converts the
duration product — and every written frame has dimensions
`(preview_width, int(preview_width * height / width))` with
`preview_width = min(640, width)` (truncation, not rounding). -/
theorem C2_amended (blurFn : Int → FrameData → FrameData)
    (samplerFn : Nat → Nat → FrameData → Nat → Nat → Pixel) (sink : Bool)
    (frames : List FrameData) (fps : ℚ) (tf : Int) (width height : Nat)
    (md : Schedule) (bs pd : Int) (hw : 0 < width) :
    ∃ ws, generate_preview blurFn samplerFn true sink frames fps tf width height
        md bs pd = .ok (ws, true)
      ∧ ws.length = min frames.length ((min tf (pyInt ((pd : ℚ) * fps))).toNat)
      ∧ ∀ f ∈ ws, f.w = min 640 width
          ∧ f.h = (pyInt (((min 640 width : Nat) : ℚ) * (height : ℚ) / (width : ℚ))).toNat := by
  refine ⟨previewLoop blurFn samplerFn md bs (min 640 width)
      (pyInt (((min 640 width : Nat) : ℚ) * (height : ℚ) / (width : ℚ))).toNat
      (frames.take (min tf (pyInt ((pd : ℚ) * fps))).toNat) 0, rfl, ?_, ?_⟩
  · rw [previewLoop_length, List.length_take, Nat.min_comm]
  · intro f hf
    have hd := previewLoop_dims blurFn samplerFn md bs _ _ _ 0 f hf
    exact ⟨hd.2, hd.1⟩

/-- C2 counterexample: the concrete preview run (three readable frames,
fps = 2.7, container count 3, 1000×334 source, duration 1s) writes 2 frames,
not the claimed `min(3, round(2.7)) = 3` (the code truncates 2.7 to 2), and
each written frame has height `int(640 * 334 / 1000) = 213`, not the claimed
`round(213.76) = 214`. -/
theorem C2_counterexample :
    (previewFrames c2Run).length = 2
    ∧ 2 ≠ min 3 ((round ((1 : ℚ) * (27/10))).toNat)
    ∧ ((previewFrames c2Run).getD 0 default).h = 213
    ∧ (213 : Int) ≠ round ((640 : ℚ) * 334 / 1000) := by
  have hpf : pyInt ((27 : ℚ) / 10) = 2 := by
    rw [pyInt]; norm_num
  have hph : pyInt ((640 : ℚ) * 334 / 1000) = 213 := by
    rw [pyInt]; norm_num
  refine ⟨?_, ?_, ?_, ?_⟩
  · simp [c2Run, generate_preview, previewFrames, hpf, hph, c2Frames,
      previewLoop_length]
  · norm_num [round_eq]
  · simp [c2Run, generate_preview, previewFrames, hpf, hph, c2Frames, previewLoop,
      List.take]
  · norm_num [round_eq]

/-- C2 witness: the amended preview claim applied to the concrete run
(three readable 334×1000 frames, fps = 2.7, container count 3, duration 1). -/
theorem C2_witness :
    0 < 1000
    ∧ ∃ ws, generate_preview blurToZero sampler0 true true c2Frames (27/10) 3
        1000 334 [] 15 1 = .ok (ws, true)
      ∧ ws.length = min c2Frames.length ((min 3 (pyInt (((1 : Int) : ℚ) * (27/10)))).toNat)
      ∧ ∀ f ∈ ws, f.w = min 640 1000
          ∧ f.h = (pyInt (((min 640 1000 : Nat) : ℚ) * ((334 : Nat) : ℚ) / ((1000 : Nat) : ℚ))).toNat :=
  ⟨by decide,
   C2_amended blurToZero sampler0 true c2Frames (27/10) 3 1000 334 [] 15 1 (by decide)⟩

/-- C7 (code bug): when the output sink cannot be created, `process_video`
raises before any frame is written, as the claim states — but
`generate_preview` never consults `out.isOpened()`: it runs its whole loop
against the unusable writer and still returns `True`, for every input.  The
second conjunct evaluates the code at the failing input (sink not opened):
the call returns `.ok (…, true)` instead of raising. -/
theorem C7_code_bug_preview_sink_unchecked :
    (∀ (blurFn : Int → FrameData → FrameData) (frames : List FrameData)
        (tf : Int) (md : Schedule) (bs : Int) (cb : Bool),
      process_video blurFn true true false frames tf md bs cb
        = .error "Cannot create output video")
    ∧ (∀ (blurFn : Int → FrameData → FrameData)
        (samplerFn : Nat → Nat → FrameData → Nat → Nat → Pixel)
        (frames : List FrameData) (fps : ℚ) (tf : Int) (w h : Nat)
        (md : Schedule) (bs pd : Int),
      ∃ ws, generate_preview blurFn samplerFn true false frames fps tf w h md bs pd
        = .ok (ws, true)) := by
  constructor
  · intro blurFn frames tf md bs cb
    simp [process_video]
  · intro blurFn samplerFn frames fps tf w h md bs pd
    exact ⟨_, rfl⟩

/-- C8: in CNN mode `detect_faces` discards exactly the raw detections whose
reported confidence is below 0.5 and keeps the rest with their confidence,
while in HOG mode (no reported confidence) every detection is kept with
confidence 1.0; every kept box is expanded with margin 0.15 (CNN) or 0.2
(HOG) via `new_x = max(0, int(x - width*margin))`,
`new_w = min(frame_width - new_x, int(width*(1 + 2*margin)))`, and
symmetrically for y/height. -/
theorem C8_confidence_filter_and_margin (H W : Nat)
    (cdets : List (RawRect × ℚ)) (hdets : List RawRect) :
    detect_faces (.cnn cdets) true H W
      = cdets.filterMap (fun d =>
          if d.2 < 0.5 then none
          else some
            ⟨max 0 (pyInt ((d.1.left : ℚ) - (d.1.width : ℚ) * 0.15)),
             max 0 (pyInt ((d.1.top : ℚ) - (d.1.height : ℚ) * 0.15)),
             min ((W : Int) - max 0 (pyInt ((d.1.left : ℚ) - (d.1.width : ℚ) * 0.15)))
               (pyInt ((d.1.width : ℚ) * (1 + 2 * 0.15))),
             min ((H : Int) - max 0 (pyInt ((d.1.top : ℚ) - (d.1.height : ℚ) * 0.15)))
               (pyInt ((d.1.height : ℚ) * (1 + 2 * 0.15))),
             d.2⟩)
    ∧ detect_faces (.hog hdets) true H W
      = hdets.map (fun rect =>
          ⟨max 0 (pyInt ((rect.left : ℚ) - (rect.width : ℚ) * 0.2)),
           max 0 (pyInt ((rect.top : ℚ) - (rect.height : ℚ) * 0.2)),
           min ((W : Int) - max 0 (pyInt ((rect.left : ℚ) - (rect.width : ℚ) * 0.2)))
             (pyInt ((rect.width : ℚ) * (1 + 2 * 0.2))),
           min ((H : Int) - max 0 (pyInt ((rect.top : ℚ) - (rect.height : ℚ) * 0.2)))
             (pyInt ((rect.height : ℚ) * (1 + 2 * 0.2))),
           1⟩) := by
  constructor
  · show cnnFaceLoop W H cdets = _
    induction cdets with
    | nil => rfl
    | cons d rest ih =>
      obtain ⟨rect, confidence⟩ := d
      by_cases hc : confidence < 0.5
      · simp [cnnFaceLoop, hc, List.filterMap_cons, ih]
      · simp [cnnFaceLoop, hc, List.filterMap_cons, ih]
  · show hogFaceLoop W H hdets = _
    induction hdets with
    | nil => rfl
    | cons rect rest ih => simp [hogFaceLoop, ih]

/-- The analysis loop distributes over appended frame batches, continuing
the frame numbering. -/
theorem analyzeLoop_append (H W : Nat) :
    ∀ (a b : List (DetectorKind × Bool)) (n : Nat),
      analyzeLoop H W (a ++ b) n
        = analyzeLoop H W a n ++ analyzeLoop H W b (n + a.length) := by
  intro a
  induction a with
  | nil => intro b n; simp [analyzeLoop]
  | cons p rest ih =>
    intro b n
    obtain ⟨kind, ok⟩ := p
    simp only [List.cons_append, analyzeLoop, List.length_cons]
    simp only [List.append_eq]
    rw [ih b (n + 1), List.append_assoc]
    have harith : n + 1 + rest.length = n + (rest.length + 1) := by omega
    rw [harith]

/-- C9: a detector invocation that raises on one frame is caught inside
`detect_faces`, which returns the empty face list (zero detections for that
frame), and `analyze_video` keeps processing: the frames before the failing
one contribute their entries unchanged, the failing frame contributes no
entry, and every subsequent frame is still processed with its frame number
intact. -/
theorem C9_detector_failure_recovered :
    (∀ (kind : DetectorKind) (H W : Nat), detect_faces kind false H W = [])
    ∧ (∀ (H W : Nat) (pre : List (DetectorKind × Bool)) (kind : DetectorKind)
        (post : List (DetectorKind × Bool)),
      (analyze_video (pre ++ (kind, false) :: post) H W).faces_by_frame
        = analyzeLoop H W pre 0 ++ analyzeLoop H W post (pre.length + 1)) := by
  constructor
  · intro kind H W; rfl
  · intro H W pre kind post
    show analyzeLoop H W (pre ++ (kind, false) :: post) 0 = _
    rw [analyzeLoop_append]
    simp [analyzeLoop, detect_faces, Nat.add_comm]

/-- Every box the CNN branch produces lies within the frame bounds. -/
theorem cnnFaceLoop_bounds (W H : Nat) :
    ∀ (dets : List (RawRect × ℚ)) (b : FaceBoundingBox), b ∈ cnnFaceLoop W H dets →
      0 ≤ b.x ∧ 0 ≤ b.y ∧ b.x + b.width ≤ (W : Int) ∧ b.y + b.height ≤ (H : Int) := by
  intro dets
  induction dets with
  | nil => intro b hb; exact absurd hb (by simp [cnnFaceLoop])
  | cons d rest ih =>
    intro b hb
    obtain ⟨rect, confidence⟩ := d
    by_cases hc : confidence < 0.5
    · exact ih b (by simpa [cnnFaceLoop, hc] using hb)
    · rcases List.mem_cons.mp (by simpa [cnnFaceLoop, hc] using hb) with h | h
      · subst h
        refine ⟨?_, ?_, ?_, ?_⟩ <;> (dsimp only; omega)
      · exact ih b h

/-- Every box the HOG branch produces lies within the frame bounds. -/
theorem hogFaceLoop_bounds (W H : Nat) :
    ∀ (dets : List RawRect) (b : FaceBoundingBox), b ∈ hogFaceLoop W H dets →
      0 ≤ b.x ∧ 0 ≤ b.y ∧ b.x + b.width ≤ (W : Int) ∧ b.y + b.height ≤ (H : Int) := by
  intro dets
  induction dets with
  | nil => intro b hb; exact absurd hb (by simp [hogFaceLoop])
  | cons rect rest ih =>
    intro b hb
    rcases List.mem_cons.mp (by simpa [hogFaceLoop] using hb) with h | h
    · subst h
      refine ⟨?_, ?_, ?_, ?_⟩ <;> (dsimp only; omega)
    · exact ih b h

/-- C10: every box `detect_faces` returns lies within the frame bounds:
`0 ≤ x`, `0 ≤ y`, `x + width ≤ frame_width` and `y + height ≤ frame_height`,
for every detector mode, every invocation outcome and every list of raw
detector rectangles. -/
theorem C10_boxes_within_bounds (kind : DetectorKind) (ok : Bool) (H W : Nat)
    (b : FaceBoundingBox) (hb : b ∈ detect_faces kind ok H W) :
    0 ≤ b.x ∧ 0 ≤ b.y ∧ b.x + b.width ≤ (W : Int) ∧ b.y + b.height ≤ (H : Int) := by
  cases ok with
  | false => exact absurd hb (by simp [detect_faces])
  | true =>
    cases kind with
    | cnn dets => exact cnnFaceLoop_bounds W H dets b (by simpa [detect_faces] using hb)
    | hog dets => exact hogFaceLoop_bounds W H dets b (by simpa [detect_faces] using hb)

/-- C10 witness: the bounds applied to the concrete box `detect_faces`
produces from the raw HOG detection (0,0,10,10) on a 100×100 frame. -/
theorem C10_witness :
    0 ≤ hogBox.x ∧ 0 ≤ hogBox.y ∧ hogBox.x + hogBox.width ≤ ((100 : Nat) : Int)
    ∧ hogBox.y + hogBox.height ≤ ((100 : Nat) : Int) := by
  apply C10_boxes_within_bounds (.hog [hogRect]) true 100 100 hogBox
  show hogBox ∈ hogFaceLoop 100 100 [hogRect]
  have h1 : pyInt (-((10 : ℚ) * 0.2)) = -2 := by
    rw [pyInt]; norm_num [Int.ceil_eq_iff]
  have h2 : pyInt ((10 : ℚ) * (1 + 2 * 0.2)) = 14 := by
    rw [pyInt]; norm_num
  simp [hogFaceLoop, hogRect, hogBox, h1, h2]
